import Mathlib

/-!
Verification development for the Breep peer-to-peer library core:
a shallow embedding of `basic_peer_manager.hpp`, `tcp/basic_io_manager.hpp`
and `detail/object_builder.hpp`, with theorems settling the specification
claims about them.

Modelling conventions:
- `std::unordered_map<listener_id, F>` is modelled as an association list
  `List (Nat × F)` whose key set is kept duplicate-free by the same
  operations the container offers (`emplace` inserts only when the key is
  absent, `erase` drops the key, `count` tests membership).
- callbacks (`std::function`) are modelled by an arbitrary payload type `F`
  (instantiated with `Nat` in concrete evaluations); the model never needs
  to apply them, only to track which one is stored under which id.
- machine integers are `Nat` (with explicit `% 256` where the source casts
  to `uint8_t`); `std::chrono::milliseconds` is a signed count, hence `Int`.
-/

namespace Breep

/-! ## detail::object_builder (object_builder.hpp) -/

/-- Key membership in an association list: `m_listeners.count(id)` of
`std::unordered_map`. -/
def mapContains {F : Type} (m : List (Nat × F)) (k : Nat) : Bool :=
  m.any (fun p => p.1 == k)

/-- `std::unordered_map::emplace`: inserts the pair only when the key is not
already present. -/
def mapEmplace {F : Type} (m : List (Nat × F)) (p : Nat × F) : List (Nat × F) :=
  if mapContains m p.1 then m else m ++ [p]

/-- `std::unordered_map::erase(key)`. -/
def mapErase {F : Type} (m : List (Nat × F)) (k : Nat) : List (Nat × F) :=
  m.filter (fun p => p.1 != k)

/-- State of `breep::detail::object_builder<io_manager, T>`:
`m_listeners` (the live map), `m_to_add` and `m_to_remove` (the deferred
queues). The mutex only serializes access and has no sequential content. -/
structure ObjectBuilder (F : Type) where
  m_listeners : List (Nat × F)
  m_to_add : List (Nat × F)
  m_to_remove : List Nat
deriving DecidableEq, Repr

/-- The queue-application prologue of `object_builder::build_and_call`
(object_builder.hpp lines 70-79): under the lock, every pair of `m_to_add`
is `emplace`d into `m_listeners` (the source moves out of the queue element,
leaving a moved-from pair behind) and every id of `m_to_remove` is `erase`d.
The source contains no `m_to_add.clear()` / `m_to_remove.clear()`, so both
queues keep their elements. -/
def drain {F : Type} (b : ObjectBuilder F) : ObjectBuilder F :=
  { b with
    m_listeners :=
      b.m_to_remove.foldl mapErase (b.m_to_add.foldl mapEmplace b.m_listeners) }

/-- Result of `object_builder::build_and_call`: the builder state after the
queue prologue, the rest of the input archive, the sequence of listener
invocations performed — each carries the callback, the id the wrapper
field `listener_id` was set to just before the call, and the object the
wrapper holds — and the boolean return value. -/
structure BuildResult (F T : Type) where
  builder : ObjectBuilder F
  archive : List T
  calls : List (F × Nat × T)
  returned : Bool
deriving DecidableEq, Repr

/-- `object_builder::build_and_call` (object_builder.hpp lines 63-96).
The boost binary archive is modelled as the list of objects remaining to be
deserialized; `data >> object` takes the head. After the queue prologue,
if the live map is empty the call logs and returns `false` without touching
the archive; otherwise exactly one `T` is deserialized and every live
listener is called once with the wrapper (its `listener_id` field set to the
iterated id). Reading past the end of the archive raises a boost archive
exception, modelled as `none`. The `is_private` flag only selects a log
message and is omitted. -/
def build_and_call {F T : Type} (b : ObjectBuilder F) (archive : List T) :
    Option (BuildResult F T) :=
  let b1 := drain b
  if b1.m_listeners.isEmpty then
    some ⟨b1, archive, [], false⟩
  else
    match archive with
    | [] => none
    | object :: rest =>
      some ⟨b1, rest, b1.m_listeners.map (fun p => (p.2, p.1, object)), true⟩

/-- `object_builder::add_listener` (object_builder.hpp lines 98-104): pushes
the (id, callback) pair onto the deferred `m_to_add` queue. The id itself is
supplied by the caller (the network façade draws it from its counter). -/
def add_listener {F : Type} (b : ObjectBuilder F) (id : Nat) (l : F) :
    ObjectBuilder F :=
  { b with m_to_add := b.m_to_add ++ [(id, l)] }

/-- The rescission step of `object_builder::remove_listener` on the
`m_to_add` queue: `*it = m_to_add.back(); m_to_add.pop_back();` — the first
entry whose key is `id` is overwritten with the last element, then the last
slot is dropped. -/
def rescind {F : Type} (l : List (Nat × F)) (id : Nat) : List (Nat × F) :=
  match l.findIdx? (fun p => p.1 == id) with
  | none => l
  | some i =>
    match l.getLast? with
    | none => l
    | some last => (l.set i last).dropLast

/-- `object_builder::remove_listener` (object_builder.hpp lines 106-129):
if the id is live and not already queued in `m_to_remove`, queue it and
return `true`; if the id is not live but an entry with that key is pending
in `m_to_add`, rescind that entry (swap-with-back) and return `true`;
otherwise log a warning and return `false`. -/
def remove_listener {F : Type} (b : ObjectBuilder F) (id : Nat) :
    Bool × ObjectBuilder F :=
  if mapContains b.m_listeners id then
    if b.m_to_remove.all (fun x => x != id) then
      (true, { b with m_to_remove := b.m_to_remove ++ [id] })
    else
      (false, b)
  else
    if (b.m_to_add.findIdx? (fun p => p.1 == id)).isSome then
      (true, { b with m_to_add := rescind b.m_to_add id })
    else
      (false, b)

/-- `object_builder::clear_any` (object_builder.hpp lines 135-141). -/
def clear_any {F : Type} (_ : ObjectBuilder F) : ObjectBuilder F :=
  ⟨[], [], []⟩

/-! ## basic_peer_manager (basic_peer_manager.hpp) -/

/-- `basic_peer_manager::default_port` (basic_peer_manager.hpp line 71). -/
def default_port : Nat := 3479

/-- The fields of `basic_peer_manager` that the modelled operations read or
write: the configured port, the running flag, and the port the io_manager
acceptor is currently bound to. -/
structure PMState where
  m_port : Nat
  m_running : Bool
  acceptorPort : Nat
deriving DecidableEq, Repr

/-- `basic_peer_manager::require_non_running` (basic_peer_manager.hpp
lines 409-412). The C++ body is `if (m_running) invalid_state("Already
running.");` — the branch constructs a temporary `breep::invalid_state`
exception object and immediately discards it; there is no `throw`, so
control always falls through and the function returns normally. The
`Except` codomain records that no exception escapes on either branch. -/
def require_non_running (m_running : Bool) : Except String Unit :=
  if m_running then
    Except.ok ()
  else
    Except.ok ()

/-- `basic_peer_manager::port(unsigned short)` (basic_peer_manager.hpp
lines 322-328): when the new port differs, call `require_non_running`, store
the port, and rebind the io_manager acceptor. -/
def port_set (st : PMState) (p : Nat) : Except String PMState :=
  if st.m_port ≠ p then do
    require_non_running st.m_running
    Except.ok { st with m_port := p, acceptorPort := p }
  else
    Except.ok st

/-- Modelled from the spec: the body of `basic_peer_manager::run` lives in
`impl/basic_peer_manager.tcc`, which is absent from the sources; its header
documentation (basic_peer_manager.hpp lines 153-163, `@throws invalid_state
if the peer_manager is already running`) and the spec table say it guards on
the running state and then starts the event loop. The guard is the
`require_non_running` of the header, embedded above as the source writes
it. -/
def run (st : PMState) : Except String PMState := do
  require_non_running st.m_running
  Except.ok { st with m_running := true }

/-- A peer record, as far as the modelled io_manager operations inspect it:
its id, its `is_directly_connected` flag, whether `io_data.socket` is a
non-null pointer (`io_manager_data` default-constructs the socket member to
`nullptr`, basic_io_manager.hpp line 50, and per the spec io_state exists
only for direct peers), and `io_data.timestamp` in milliseconds. -/
structure PeerRec where
  pid : Nat
  direct : Bool
  hasSocket : Bool
  timestamp : Int
deriving DecidableEq, Repr

/-- `basic_peer_manager::peers` (basic_peer_manager.hpp lines 302-304)
returns `const std::unordered_map<uuid, peer, hash>&`, a reference to the
member `m_peers` itself. In the embedding a reference is read at
observation time: given the table contents when the accessor returned
(`callState`) and the table contents when the embedder actually reads
through the returned reference (`obsState`), the value obtained is the
latter. -/
def peers_deref (callState obsState : List PeerRec) : List PeerRec :=
  let _ := callState
  obsState

/-- The accessor semantics asserted by the spec, for comparison: a snapshot
taken when the accessor returns, unaffected by later mutation. -/
def peers_snapshot_spec (callState obsState : List PeerRec) : List PeerRec :=
  let _ := obsState
  callState

/-- Modelled from the spec: `peer_connected` (impl/basic_peer_manager.tcc,
absent from src) performed by the event loop adds the new peer record to the
peer table. -/
def peer_connected_insert (table : List PeerRec) (p : PeerRec) :
    List PeerRec :=
  table ++ [p]

/-- Modelled from the spec: `add_connection_listener`, `add_data_listener`
and `add_disconnection_listener` (impl/basic_peer_manager.tcc, absent from
src) each lock the matching mutex, store the callback in their registry
keyed by the current value of the shared counter `m_id_count`
(basic_peer_manager.hpp line 446, a single member used by all three), and
hand that value out, incrementing the counter. The three registries are
tagged 0, 1, 2 (connection, data, disconnection). -/
def add_any_listener (idCount : Nat)
    (registered : List (Nat × Nat)) (registry : Nat) :
    Nat × Nat × List (Nat × Nat) :=
  (idCount, idCount + 1, registered ++ [(idCount, registry)])

/-- Runs a sequence of listener registrations (each element of `ops` names
the registry the callback goes to) and returns all (id, registry) pairs
handed out. -/
def register_all (idCount : Nat) (registered : List (Nat × Nat)) :
    List Nat → List (Nat × Nat)
  | [] => registered
  | registry :: ops =>
    let r := add_any_listener idCount registered registry
    register_all r.2.1 r.2.2 ops

/-! ## tcp::basic_io_manager (tcp/basic_io_manager.hpp) -/

/-- Default of the `keep_alive_send_millis` template parameter
(basic_io_manager.hpp line 97). -/
def keep_alive_send_millis : Nat := 5000

/-- Default of the `timeout_millis` template parameter
(basic_io_manager.hpp line 97). -/
def timeout_millis : Nat := 120000

/-- Default of the `timeout_check_interval_millis` template parameter,
`timeout_millis / 5` (basic_io_manager.hpp line 97). -/
def timeout_check_interval_millis : Nat := timeout_millis / 5

/-- The `BUFFER_LENGTH` argument of the `tcp::io_manager` typedef,
`typedef basic_io_manager<1024> io_manager` (basic_io_manager.hpp
line 202). -/
def io_manager_buffer_length : Nat := 1024

/-- Modelled from the spec: `detail::make_little_endian` (breep/util, absent
from src) transfers the characters of the uuid string into the output
buffer, appending the `[uuid-text:len bytes]` of the handshake; byte-order
adjustment is the identity on a byte string. -/
def make_little_endian (s : List Nat) (out : List Nat) : List Nat :=
  out ++ s

/-- `basic_io_manager::make_id_packet` (basic_io_manager.hpp lines 176-185):
clear the packet, resize it to three zero bytes, append the uuid text via
`make_little_endian`, then overwrite byte 0 with
`static_cast<uint8_t>(size - 1)`, byte 1 with the high byte of the owner
port and byte 2 with its low byte. `id_str` is the character list of
`to_string(self id)`; `p` is the owner port (an `unsigned short`). -/
def make_id_packet (id_str : List Nat) (p : Nat) : List Nat :=
  let packet := make_little_endian id_str [0, 0, 0]
  ((packet.set 0 ((packet.length - 1) % 256)).set 1 ((p >>> 8) % 256)).set 2
    (p % 256)

/-- The identity-buffer layout the spec asserts, for comparison:
`[len:1] [uuid-text] [listen-port-hi:1] [listen-port-lo:1]` with the length
byte equal to the length of the uuid text. -/
def claimed_id_packet (id_str : List Nat) (p : Nat) : List Nat :=
  id_str.length % 256 :: id_str ++ [(p >>> 8) % 256, p % 256]

/-- `basic_io_manager::keep_alive_impl` (basic_io_manager.hpp lines
147-153): on each expiry it iterates `m_owner->peers()` — the whole peer
table — and calls `send(commands::keep_alive, unused, peer)` on every entry,
then re-arms the timer. The function returns the list of peer ids a
keep_alive send is issued for, in iteration order. -/
def keep_alive_impl (table : List PeerRec) : List Nat :=
  table.map PeerRec.pid

/-- `basic_io_manager::timeout_impl` (basic_io_manager.hpp lines 155-164):
on each expiry it iterates `m_owner->peers()` — the whole peer table — and
for every entry whose timestamp is older than `timeout` relative to
`time_now` executes `peers_pair.second.io_data.socket->close()`. The result
is the list of peer ids whose socket is closed; dereferencing the socket
pointer of a record that has none (a null `shared_ptr`) is undefined
behaviour, modelled as `none`. -/
def timeout_impl (time_now : Int) (timeout : Int) (table : List PeerRec) :
    Option (List Nat) :=
  table.foldl
    (fun acc pr =>
      match acc with
      | none => none
      | some closed =>
        if time_now - pr.timestamp > timeout then
          if pr.hasSocket then some (closed ++ [pr.pid]) else none
        else
          some closed)
    (some [])

/-! ## Concrete fixtures used by counterexamples and witnesses -/

/-- Character codes of the canonical 36-character textual form of the uuid
aaaaaaaa-aaaa-aaaa-aaaa-aaaaaaaaaaaa (97 is the letter a, 45 the hyphen). -/
def uuid_a : List Nat :=
  [97, 97, 97, 97, 97, 97, 97, 97, 45, 97, 97, 97, 97, 45,
   97, 97, 97, 97, 45, 97, 97, 97, 97, 45,
   97, 97, 97, 97, 97, 97, 97, 97, 97, 97, 97, 97]

/-- A direct neighbor: socket open, fresh timestamp. -/
def direct_peer_1 : PeerRec := ⟨1, true, true, 0⟩

/-- An indirect peer: reached via a bridge, no socket of its own
(`io_manager_data` default-constructs the socket to null). -/
def indirect_peer_2 : PeerRec := ⟨2, false, false, 0⟩

/-- An object_builder state reachable by: add listener 5, dispatch once,
add listener 7, remove listener 5. -/
def c2_builder : ObjectBuilder Nat := ⟨[(5, 9)], [(7, 42)], [5]⟩

/-! ## Theorems for the claims -/

/-- C8: the configuration defaults are listening port 3479, read buffer
length 1024 bytes, keep-alive interval 5000 ms, dead-peer timeout
120000 ms, and timeout-check interval equal to the timeout divided by 5,
i.e. 24000 ms. -/
theorem C8_configuration_defaults :
    default_port = 3479 ∧ io_manager_buffer_length = 1024 ∧
    keep_alive_send_millis = 5000 ∧ timeout_millis = 120000 ∧
    timeout_check_interval_millis = timeout_millis / 5 ∧
    timeout_check_interval_millis = 24000 := by
  decide

/-- C1 (code-bug evidence): with the event loop running, `port` with a new
port value and `run` both complete normally — `require_non_running` merely
constructs and discards the `invalid_state` temporary, so no invalid-state
error reaches the caller, contradicting the claim (and the header documentation with its own
`@throws` documentation); `port` even goes on to rebind the acceptor. -/
theorem C1_no_invalid_state_reaches_caller :
    port_set ⟨3479, true, 3479⟩ 4000 = Except.ok ⟨4000, true, 4000⟩ ∧
    run ⟨3479, true, 3479⟩ = Except.ok ⟨3479, true, 3479⟩ ∧
    require_non_running true = Except.ok () :=
  ⟨rfl, rfl, rfl⟩

/-- C2 (code-bug evidence): a `build_and_call` at the state reached by
add(5), dispatch, add(7), remove(5) applies the deferred queues to the live
map (7 becomes live, 5 is erased) but leaves both queues populated —
`m_to_add` still holds the (now moved-from) entry for 7 and `m_to_remove`
still holds 5 — because the source never clears them, contradicting the
claim that the drain leaves both queues empty. -/
theorem C2_queues_survive_dispatch_boundary :
    build_and_call c2_builder [99] =
      some ⟨⟨[(7, 42)], [(7, 42)], [5]⟩, [], [(42, 7, 99)], true⟩ ∧
    (drain c2_builder).m_to_add ≠ [] ∧
    (drain c2_builder).m_to_remove ≠ [] := by
  decide

/-- C3 (counterexample): for the canonical uuid text of peer a and port
3479, the identity buffer built by `make_id_packet` differs from the layout
the claim asserts: its first byte is 38 (the uuid length plus the two port
bytes), not 36, and the port bytes precede the uuid text instead of
following it. -/
theorem C3_layout_counterexample :
    make_id_packet uuid_a 3479 ≠ claimed_id_packet uuid_a 3479 ∧
    uuid_a.length = 36 ∧
    (make_id_packet uuid_a 3479).take 3 = [38, 13, 151] := by
  decide

/-- C3 (amended): the identity buffer is laid out as a length byte, then the
high byte of the declared listening port, then the low byte, then the
36-character canonical uuid text, and the length byte equals 38 — the byte
count that follows it (uuid length plus the two port bytes) — not the uuid
length. -/
theorem C3_amended_layout (id_str : List Nat) (p : Nat)
    (h : id_str.length = 36) :
    make_id_packet id_str p =
      38 :: (p >>> 8) % 256 :: p % 256 :: id_str := by
  simp [make_id_packet, make_little_endian, List.set, h]

/-- C3 amended-claim witness at the uuid of peer a and port 3479. -/
theorem C3_amended_layout_witness :
    uuid_a.length = 36 ∧
    make_id_packet uuid_a 3479 = 38 :: 13 :: 151 :: uuid_a :=
  ⟨by decide, by simpa using C3_amended_layout uuid_a 3479 (by decide)⟩

/-- C4 (code-bug evidence): on a keep-alive expiry over a table holding a
direct neighbor and an indirect peer, `keep_alive_impl` issues a keep_alive
send for both entries — it iterates the whole `peers()` table — although
the indirect peer is not directly connected (and has no socket to write
to), contradicting the claim that only direct neighbors receive the
frame. -/
theorem C4_keep_alive_sent_to_indirect_peer :
    keep_alive_impl [direct_peer_1, indirect_peer_2] = [1, 2] ∧
    indirect_peer_2.direct = false ∧ indirect_peer_2.hasSocket = false := by
  decide

/-- C5 (code-bug evidence): on a timeout expiry at time 200000 with timeout
120000, `timeout_impl` over a table holding only a stale direct neighbor
closes the socket of that neighbor; but over a table also holding a stale
indirect peer it dereferences the null socket pointer of the indirect peer
(modelled `none`) — the scan touches peers that are not direct neighbors,
contradicting the claim. -/
theorem C5_timeout_scan_touches_indirect_peer :
    timeout_impl 200000 120000 [⟨1, true, true, 0⟩] = some [1] ∧
    timeout_impl 200000 120000 [⟨1, true, true, 0⟩, ⟨2, false, false, 0⟩] =
      none ∧
    timeout_impl 200000 120000 [⟨1, true, true, 150000⟩] = some [] := by
  decide

/-- C6 (counterexample): the value the embedder obtains through the
reference returned by `peers()` is affected by a peer-table mutation the
event loop performs afterwards: called on an empty table, a subsequent
`peer_connected` insertion makes the observed value non-empty, so the
accessor does not return a snapshot. -/
theorem C6_snapshot_counterexample :
    peers_deref [] (peer_connected_insert [] direct_peer_1) ≠
      peers_snapshot_spec [] (peer_connected_insert [] direct_peer_1) := by
  decide

/-- C6 (amended): `peers()` returns a const reference to the live peer
table, not a snapshot: a read through the returned reference observes the
table as the event loop has mutated it since the accessor returned (here,
it gains exactly the record inserted by peer_connected), while a snapshot
would still show the call-time contents. -/
theorem C6_amended_live_reference (callState : List PeerRec) (p : PeerRec) :
    peers_deref callState (peer_connected_insert callState p) =
      callState ++ [p] ∧
    peers_snapshot_spec callState (peer_connected_insert callState p) =
      callState :=
  ⟨rfl, rfl⟩

/-- The ids handed out by a registration sequence: the accumulated pairs map
to the counter values `idCount, idCount + 1, ...`. -/
lemma register_all_ids (ops : List Nat) :
    ∀ (idCount : Nat) (acc : List (Nat × Nat)),
      (register_all idCount acc ops).map Prod.fst =
        acc.map Prod.fst ++ List.range' idCount ops.length := by
  induction ops with
  | nil =>
    intro idCount acc
    simp [register_all]
  | cons r ops ih =>
    intro idCount acc
    simp only [register_all, add_any_listener, ih, List.length_cons,
      List.range'_succ, List.map_append, List.map_cons, List.map_nil]
    simp

/-- C9: every listener id handed out by the three add-listener operations is
drawn from the single monotonic counter `m_id_count`, so across any
registration sequence (each step naming one of the three registries) the
ids handed out are pairwise distinct — no two listeners, in the same or in
different registries, share an id. -/
theorem C9_listener_ids_unique (c0 : Nat) (ops : List Nat) :
    ((register_all c0 [] ops).map Prod.fst).Nodup := by
  rw [register_all_ids]
  simpa using List.nodup_range' c0 ops.length

/-- Swap-with-back removal (`*it = back(); pop_back();`): overwriting
position `i` with the last element and dropping the last slot is a
permutation of erasing position `i`. -/
lemma set_last_dropLast_perm {α : Type} :
    ∀ (l : List α) (i : Nat), i < l.length →
      ∀ lst, l.getLast? = some lst →
        List.Perm ((l.set i lst).dropLast) (l.eraseIdx i)
  | [], i, h, _, _ => by simp at h
  | [a], 0, _, lst, hl => by
    simp only [List.getLast?_singleton, Option.some.injEq] at hl
    subst hl
    simp
  | [a], i + 1, h, _, _ => by
    simp at h
  | a :: b :: t, 0, _, lst, hl => by
    rw [List.getLast?_cons_cons] at hl
    simp only [List.set_cons_zero, List.dropLast_cons₂,
      List.eraseIdx_cons_zero]
    have h2 : (b :: t).dropLast ++ [lst] = b :: t :=
      List.dropLast_append_getLast? lst hl
    exact List.Perm.trans
      (List.perm_append_singleton lst ((b :: t).dropLast)).symm
      (by rw [h2])
  | a :: b :: t, i + 1, h, lst, hl => by
    rw [List.getLast?_cons_cons] at hl
    have hi : i < (b :: t).length := Nat.lt_of_succ_lt_succ h
    have hne : (b :: t).set i lst ≠ [] := by
      intro hempty
      have hlen := List.length_set (b :: t) i lst
      rw [hempty] at hlen
      simp at hlen
    simp only [List.set_cons_succ, List.eraseIdx_cons_succ]
    rw [List.dropLast_cons_of_ne_nil hne]
    exact List.Perm.cons a (set_last_dropLast_perm (b :: t) i hi lst hl)

/-- The rescission performed by `remove_listener` on a queue that holds an
entry keyed `id` at position `i` removes exactly that position, up to
permutation. -/
lemma rescind_perm {F : Type} {l : List (Nat × F)} {id i : Nat}
    (h : l.findIdx? (fun p => p.1 == id) = some i) :
    List.Perm (rescind l id) (l.eraseIdx i) := by
  obtain ⟨hlt, -, -⟩ := List.findIdx?_eq_some_iff_getElem.mp h
  have hne : l ≠ [] := by
    intro hempty
    subst hempty
    simp at hlt
  obtain ⟨lst, hl⟩ := Option.isSome_iff_exists.mp
    (List.getLast?_isSome.mpr hne)
  rw [rescind, h, hl]
  exact set_last_dropLast_perm l i hlt lst hl

/-- C7: `remove_listener` returns true exactly when it removes something.
If the id is live and not already queued for removal, it is appended to the
to-remove queue and true is returned; if the id is not live but pending in
the to-add queue, one pending entry keyed by that id is rescinded and true
is returned; if the id is unknown — neither live nor pending — or already
scheduled for removal, false is returned and the state is unchanged. -/
theorem C7_remove_listener_contract {F : Type} (b : ObjectBuilder F)
    (id : Nat) :
    ((remove_listener b id).1 =
      ((mapContains b.m_listeners id &&
          b.m_to_remove.all (fun x => x != id)) ||
        (!mapContains b.m_listeners id && mapContains b.m_to_add id))) ∧
    (mapContains b.m_listeners id = true →
      b.m_to_remove.all (fun x => x != id) = true →
      remove_listener b id =
        (true, { b with m_to_remove := b.m_to_remove ++ [id] })) ∧
    (mapContains b.m_listeners id = false →
      mapContains b.m_to_add id = true →
      ∃ i e, b.m_to_add[i]? = some e ∧ e.1 = id ∧
        remove_listener b id =
          (true, { b with m_to_add := rescind b.m_to_add id }) ∧
        List.Perm (rescind b.m_to_add id) (b.m_to_add.eraseIdx i)) ∧
    ((remove_listener b id).1 = false → (remove_listener b id).2 = b) := by
  by_cases h1 : mapContains b.m_listeners id
  · by_cases h2 : b.m_to_remove.all (fun x => x != id)
    · refine ⟨?_, ?_, ?_, ?_⟩
      · simp [remove_listener, h1, h2]
      · intro _ _
        simp [remove_listener, h1, h2]
      · intro hc _
        exact absurd h1 (by simp [hc])
      · intro hf
        exact absurd hf (by simp [remove_listener, h1, h2])
    · refine ⟨?_, ?_, ?_, ?_⟩
      · simp [remove_listener, h1, h2]
      · intro _ h2t
        exact absurd h2t h2
      · intro hc _
        exact absurd h1 (by simp [hc])
      · intro _
        simp [remove_listener, h1, h2]
  · by_cases h3 : mapContains b.m_to_add id
    · have hsome : (b.m_to_add.findIdx? (fun p => p.1 == id)).isSome := by
        rw [List.findIdx?_isSome]
        simpa [mapContains] using h3
      obtain ⟨i, hfind⟩ := Option.isSome_iff_exists.mp hsome
      obtain ⟨hlt, hp, -⟩ := List.findIdx?_eq_some_iff_getElem.mp hfind
      refine ⟨?_, ?_, ?_, ?_⟩
      · simp [remove_listener, h1, h3, hfind]
      · intro hc _
        exact absurd hc (by simp [h1])
      · intro _ _
        refine ⟨i, b.m_to_add.get ⟨i, hlt⟩, by simp, by simpa using hp,
          ?_, rescind_perm hfind⟩
        simp [remove_listener, h1, hfind]
      · intro hf
        exact absurd hf (by simp [remove_listener, h1, hfind])
    · have hnone : b.m_to_add.findIdx? (fun p => p.1 == id) = none := by
        rw [List.findIdx?_eq_none_iff]
        intro x hx
        by_contra hpx
        exact h3 (by
          simp only [mapContains, List.any_eq_true]
          exact ⟨x, hx, by simpa using hpx⟩)
      refine ⟨?_, ?_, ?_, ?_⟩
      · simp [remove_listener, h1, h3, hnone]
      · intro hc _
        exact absurd hc (by simp [h1])
      · intro _ hc
        exact absurd hc (by simp [h3])
      · intro _
        simp [remove_listener, h1, hnone]

/-- C7 witness: a live listener 1 is scheduled for removal with return value
true, and an id neither live nor pending yields false. -/
theorem C7_remove_listener_contract_witness :
    remove_listener (⟨[(1, 10)], [], []⟩ : ObjectBuilder Nat) 1 =
      (true, ⟨[(1, 10)], [], [1]⟩) ∧
    (remove_listener (⟨[(1, 10)], [(2, 20)], []⟩ : ObjectBuilder Nat) 5).1 =
      false :=
  ⟨(C7_remove_listener_contract ⟨[(1, 10)], [], []⟩ 1).2.1 (by decide)
     (by decide),
   by
    rw [(C7_remove_listener_contract
      (⟨[(1, 10)], [(2, 20)], []⟩ : ObjectBuilder Nat) 5).1]
    decide⟩

/-- C10: after the deferred queues are applied, `build_and_call` either
finds the live map empty — it returns false without deserializing anything
from the archive — or deserializes exactly one object and invokes every
live listener exactly once with a wrapper holding that object and that
id of that listener, returning true. (With a non-empty live map and an exhausted
archive the deserialization itself faults, modelled as `none`.) -/
theorem C10_build_and_call_contract {F T : Type} (b : ObjectBuilder F)
    (archive : List T) :
    ((drain b).m_listeners = [] →
      build_and_call b archive = some ⟨drain b, archive, [], false⟩) ∧
    ((drain b).m_listeners ≠ [] → archive = [] →
      build_and_call b archive = none) ∧
    (∀ x rest, (drain b).m_listeners ≠ [] → archive = x :: rest →
      ∃ r, build_and_call b archive = some r ∧
        r.builder = drain b ∧
        r.archive = rest ∧
        r.returned = true ∧
        r.calls = (drain b).m_listeners.map (fun p => (p.2, p.1, x)) ∧
        r.calls.length = (drain b).m_listeners.length ∧
        (((drain b).m_listeners.map Prod.fst).Nodup →
          ∀ q ∈ (drain b).m_listeners,
            r.calls.countP (fun c => c.2.1 == q.1) = 1)) := by
  refine ⟨?_, ?_, ?_⟩
  · intro hemp
    simp [build_and_call, hemp]
  · intro hne harch
    subst harch
    simp only [build_and_call]
    rw [if_neg (by simpa [List.isEmpty_iff] using hne)]
  · intro x rest hne harch
    subst harch
    refine ⟨⟨drain b, rest,
      (drain b).m_listeners.map (fun p => (p.2, p.1, x)), true⟩, ?_,
      rfl, rfl, rfl, rfl, by simp, ?_⟩
    · simp only [build_and_call]
      rw [if_neg (by simpa [List.isEmpty_iff] using hne)]
    · intro hnodup q hq
      calc List.countP (fun c => c.2.1 == q.1)
            ((drain b).m_listeners.map (fun p => (p.2, p.1, x)))
          = List.countP (fun p => p.1 == q.1) (drain b).m_listeners := by
            rw [List.countP_map]
            rfl
        _ = List.count q.1 ((drain b).m_listeners.map Prod.fst) := by
            rw [List.count_eq_countP, List.countP_map]
            rfl
        _ = 1 := List.count_eq_one_of_mem hnodup
              (List.mem_map_of_mem Prod.fst hq)

/-- C10 witness: with live listener 3 (callback 30), an exhausted archive
faults, and an archive `[5]` produces one deserialization, one call
carrying object 5 and listener id 3, and return value true. -/
theorem C10_build_and_call_contract_witness :
    build_and_call (⟨[(3, 30)], [], []⟩ : ObjectBuilder Nat)
        ([] : List Nat) = none ∧
    ∃ r, build_and_call (⟨[(3, 30)], [], []⟩ : ObjectBuilder Nat) [5] =
        some r ∧ r.returned = true ∧ r.calls = [(30, 3, 5)] := by
  have h5 := C10_build_and_call_contract
    (⟨[(3, 30)], [], []⟩ : ObjectBuilder Nat) [5]
  have h0 := C10_build_and_call_contract
    (⟨[(3, 30)], [], []⟩ : ObjectBuilder Nat) ([] : List Nat)
  refine ⟨h0.2.1 (by decide) rfl, ?_⟩
  obtain ⟨r, hr1, -, -, hr4, hr5, -, -⟩ := h5.2.2 5 [] (by decide) rfl
  exact ⟨r, hr1, hr4, by rw [hr5]; rfl⟩

end Breep
